import Mathlib

/-!
Verification of the hypersphere module (`geomstats/hypersphere.py`): the
n-dimensional hypersphere embedded in (n+1)-dimensional Euclidean space,
its membership test, projection, coordinate conversions, sampling, and the
Riemannian metric operations exp / log / dist with the Taylor-masked
treatment of the removable singularity of log at zero angle.

Machine reals are modelled by `ℝ`; division by zero yields 0 as in Lean.
Shape-sensitive operations (membership, projection, coordinate conversion,
sampling) act on `List ℝ`; the metric operations act on `Fin d → ℝ`.
Randomness is modelled by explicitly injected uniform draws, following the
spec's requirement that the random source be injectable.
-/

set_option maxHeartbeats 1000000
set_option linter.unusedVariables false

noncomputable section

/-- Module-level tolerance constant from hypersphere.py (line 16). -/
def TOLERANCE : ℝ := 1e-6

/-- Module-level epsilon constant from hypersphere.py (line 17). -/
def EPSILON : ℝ := 1e-8

/-- Extrinsic vectors of dimension d. -/
abbrev Vec (d : ℕ) : Type := Fin d → ℝ

/-- Modelled from the spec: the ambient Euclidean metric's inner product
(`geomstats/euclidean_space.py` is not under src/; spec §4.1: "the standard
Euclidean bilinear form"). -/
def EuclideanMetric.inner_product {d : ℕ} (a b : Vec d) : ℝ :=
  ∑ i, a i * b i

/-- Modelled from the spec: the ambient squared norm (spec §4.1). -/
def EuclideanMetric.squared_norm {d : ℕ} (v : Vec d) : ℝ :=
  EuclideanMetric.inner_product v v

/-- Modelled from the spec: the ambient norm (spec §4.1). -/
def EuclideanMetric.norm {d : ℕ} (v : Vec d) : ℝ :=
  Real.sqrt (EuclideanMetric.squared_norm v)

/-- Modelled from the spec: the ambient squared norm of a list-shaped point
(spec §4.1, used by the shape-sensitive Hypersphere operations). -/
def EuclideanMetric.squared_norm_list (l : List ℝ) : ℝ :=
  (l.map fun x => x * x).sum

/-- Modelled from the spec: the ambient norm of a list-shaped point. -/
def EuclideanMetric.norm_list (l : List ℝ) : ℝ :=
  Real.sqrt (EuclideanMetric.squared_norm_list l)

/-- gs.clip: clamp x into the interval from lo to hi. -/
def clip (x lo hi : ℝ) : ℝ := max lo (min x hi)

/-- gs.isclose with numpy default tolerances atol = 1e-8, rtol = 1e-5. -/
def isclose (a b : ℝ) : Prop := |a - b| ≤ 1e-8 + 1e-5 * |b|

instance (a b : ℝ) : Decidable (isclose a b) :=
  inferInstanceAs (Decidable (_ ≤ _))

/-- Outcome of Hypersphere.belongs: the returned boolean and whether the
diagnostic warning (intrinsic coordinates supplied by mistake) was emitted. -/
structure BelongsResult where
  result : Bool
  warned : Bool

/-- Error taxonomy of spec §7: NotImplementedError raised by
random_von_mises_fisher is an UnsupportedConfiguration; the failed assert in
regularize is a PreconditionViolation. -/
inductive GsError where
  | unsupportedConfiguration : GsError
  | preconditionViolation : GsError

/-- Hypersphere.belongs (hypersphere.py lines 50-65): true iff the last-axis
dimension is n+1 and the squared ambient norm is within tolerance of 1;
returns false (warning when the dimension is exactly n) on shape mismatch. -/
def Hypersphere.belongs (dimension : ℕ) (point : List ℝ) (tolerance : ℝ) :
    BelongsResult :=
  if point.length ≠ dimension + 1 then
    { result := false, warned := decide (point.length = dimension) }
  else
    { result := decide (|EuclideanMetric.squared_norm_list point - 1| ≤ tolerance),
      warned := false }

/-- Hypersphere.projection (lines 76-85): divide the point by its ambient norm. -/
def Hypersphere.projection (point : List ℝ) : List ℝ :=
  point.map fun x => x / EuclideanMetric.norm_list point

/-- Hypersphere.regularize (lines 67-74): assert belongs, then project. -/
def Hypersphere.regularize (dimension : ℕ) (point : List ℝ) :
    Except GsError (List ℝ) :=
  if (Hypersphere.belongs dimension point TOLERANCE).result then
    Except.ok (Hypersphere.projection point)
  else
    Except.error GsError.preconditionViolation

/-- Hypersphere.intrinsic_to_extrinsic_coords (lines 102-114): prepend
sqrt(1 - norm^2). -/
def Hypersphere.intrinsic_to_extrinsic_coords (point_intrinsic : List ℝ) :
    List ℝ :=
  Real.sqrt (1 - EuclideanMetric.norm_list point_intrinsic ^ 2) :: point_intrinsic

/-- Hypersphere.extrinsic_to_intrinsic_coords (lines 116-125): drop the first
coordinate. -/
def Hypersphere.extrinsic_to_intrinsic_coords (point_extrinsic : List ℝ) :
    List ℝ :=
  point_extrinsic.drop 1

/-- Hypersphere.random_uniform (lines 127-136) for one sample: shift the raw
uniform draws from the unit interval by 0.5 and lift to extrinsic coordinates. -/
def Hypersphere.random_uniform (draws : List ℝ) : List ℝ :=
  Hypersphere.intrinsic_to_extrinsic_coords (draws.map fun x => x - 0.5)

/-- Hypersphere.random_von_mises_fisher (lines 138-159): only for dimension 2;
azimuth is 2*pi times a uniform draw, the polar coordinate comes from
inverse-CDF sampling with concentration kappa. -/
def Hypersphere.random_von_mises_fisher (dimension : ℕ) (kappa : ℝ) {ns : ℕ}
    (angle_draws scalar_draws : Fin ns → ℝ) :
    Except GsError (Fin ns → Fin 3 → ℝ) :=
  if dimension ≠ 2 then Except.error GsError.unsupportedConfiguration
  else Except.ok fun i =>
    let azimuth := 2 * Real.pi * angle_draws i
    let coord_z := 1 + 1 / kappa
      * Real.log (scalar_draws i + (1 - scalar_draws i) * Real.exp (-2 * kappa))
    ![Real.sqrt (1 - coord_z ^ 2) * Real.cos azimuth,
      Real.sqrt (1 - coord_z ^ 2) * Real.sin azimuth,
      coord_z]

/-- HypersphereMetric.squared_norm (lines 169-175): the ambient squared norm;
the base_point argument is accepted but unused. -/
def HypersphereMetric.squared_norm {d : ℕ} (vector : Vec d)
    (base_point : Option (Vec d)) : ℝ :=
  EuclideanMetric.squared_norm vector

/-- HypersphereMetric.exp (lines 177-190): EPSILON is added to the norm of the
tangent vector, and that inflated norm feeds cos, sin and the division. -/
def HypersphereMetric.exp {d : ℕ} (tangent_vec base_point : Vec d) : Vec d :=
  let norm_tangent_vec := EuclideanMetric.norm tangent_vec + EPSILON
  fun j => Real.cos norm_tangent_vec * base_point j
    + Real.sin norm_tangent_vec / norm_tangent_vec * tangent_vec j

/-- The angle computed inside HypersphereMetric.log (lines 199-207): arccos of
the clipped normalized inner product of base point and point. -/
def HypersphereMetric.angle {d : ℕ} (point base_point : Vec d) : ℝ :=
  Real.arccos (clip (EuclideanMetric.inner_product base_point point
    / (EuclideanMetric.norm base_point * EuclideanMetric.norm point)) (-1) 1)

/-- mask_0 as a float (line 212): 1 inside the near-zero mask, else 0. -/
def mask0F (θ : ℝ) : ℝ := if isclose θ 0 then 1 else 0

/-- mask_else as a float (line 213): the complement of mask_0. -/
def maskElseF (θ : ℝ) : ℝ := if isclose θ 0 then 0 else 1

/-- Truncated even Taylor polynomial for theta/sin(theta) built from
INV_SIN_TAYLOR_COEFFS (lines 24-27, 230-234). -/
def taylorCoefOne (θ : ℝ) : ℝ :=
  1 + 1 / 6 * θ ^ 2 + 7 / 360 * θ ^ 4 + 31 / 15120 * θ ^ 6 + 127 / 604800 * θ ^ 8

/-- Truncated even Taylor polynomial for theta/tan(theta) built from
INV_TAN_TAYLOR_COEFFS (lines 28-31, 235-239). -/
def taylorCoefTwo (θ : ℝ) : ℝ :=
  1 + -(1 / 3) * θ ^ 2 + -(1 / 45) * θ ^ 4 + -(2 / 945) * θ ^ 6
    + -(1 / 4725) * θ ^ 8

/-- coef_1 of HypersphereMetric.log (lines 225-241): zeros plus the mask_0
contribution plus the mask_else contribution. -/
def coefOne (θ : ℝ) : ℝ :=
  0 + mask0F θ * taylorCoefOne θ + maskElseF θ * θ / Real.sin θ

/-- coef_2 of HypersphereMetric.log (lines 226-242). -/
def coefTwo (θ : ℝ) : ℝ :=
  0 + mask0F θ * taylorCoefTwo θ + maskElseF θ * θ / Real.tan θ

/-- HypersphereMetric.log (lines 192-247), elementwise over the batch. -/
def HypersphereMetric.log {d : ℕ} (point base_point : Vec d) : Vec d :=
  fun j => coefOne (HypersphereMetric.angle point base_point) * point j
    - coefTwo (HypersphereMetric.angle point base_point) * base_point j

/-- HypersphereMetric.dist (lines 249-265): arccos of the clipped normalized
inner product. -/
def HypersphereMetric.dist {d : ℕ} (point_a point_b : Vec d) : ℝ :=
  Real.arccos (clip (EuclideanMetric.inner_product point_a point_b
    / (EuclideanMetric.norm point_a * EuclideanMetric.norm point_b)) (-1) 1)

/-- Batched HypersphereMetric.log over the leading axis. -/
def HypersphereMetric.logBatch {m d : ℕ} (points base_points : Fin m → Vec d) :
    Fin m → Vec d :=
  fun i => HypersphereMetric.log (points i) (base_points i)

/-- The batched angle array inside HypersphereMetric.log. -/
def HypersphereMetric.angleBatch {m d : ℕ} (points base_points : Fin m → Vec d) :
    Fin m → ℝ :=
  fun i => HypersphereMetric.angle (points i) (base_points i)

/-- The full-length coef_1 array over a batch of angles. -/
def coefOneArr {m : ℕ} (θs : Fin m → ℝ) : Fin m → ℝ := fun i => coefOne (θs i)

/-- The full-length coef_2 array over a batch of angles. -/
def coefTwoArr {m : ℕ} (θs : Fin m → ℝ) : Fin m → ℝ := fun i => coefTwo (θs i)

/-- The mask_0 contribution to coef_1 (line 230), zero-padded off its mask. -/
def coefOneMasked0 {m : ℕ} (θs : Fin m → ℝ) : Fin m → ℝ :=
  fun i => mask0F (θs i) * taylorCoefOne (θs i)

/-- The mask_else contribution to coef_1 (line 241), zero-padded off its mask. -/
def coefOneMaskedElse {m : ℕ} (θs : Fin m → ℝ) : Fin m → ℝ :=
  fun i => maskElseF (θs i) * θs i / Real.sin (θs i)

/-- The mask_0 contribution to coef_2 (line 235), zero-padded off its mask. -/
def coefTwoMasked0 {m : ℕ} (θs : Fin m → ℝ) : Fin m → ℝ :=
  fun i => mask0F (θs i) * taylorCoefTwo (θs i)

/-- The mask_else contribution to coef_2 (line 242), zero-padded off its mask. -/
def coefTwoMaskedElse {m : ℕ} (θs : Fin m → ℝ) : Fin m → ℝ :=
  fun i => maskElseF (θs i) * θs i / Real.tan (θs i)

/-- The exp formula exactly as the spec words it for claim C3, with no epsilon
in the cosine or sine and a bare norm in the divisor: to be compared with the
source's `HypersphereMetric.exp`. -/
def HypersphereMetric.expSpec {d : ℕ} (tangent_vec base_point : Vec d) : Vec d :=
  fun j => Real.cos (EuclideanMetric.norm tangent_vec) * base_point j
    + Real.sin (EuclideanMetric.norm tangent_vec)
        / EuclideanMetric.norm tangent_vec * tangent_vec j

/-! ### Helper lemmas about the ambient metric -/

lemma squared_norm_nonneg {d : ℕ} (v : Vec d) :
    0 ≤ EuclideanMetric.squared_norm v := by
  unfold EuclideanMetric.squared_norm EuclideanMetric.inner_product
  exact Finset.sum_nonneg fun i _ => mul_self_nonneg (v i)

lemma ambient_norm_nonneg {d : ℕ} (v : Vec d) : 0 ≤ EuclideanMetric.norm v :=
  Real.sqrt_nonneg _

lemma sq_norm_eq {d : ℕ} (v : Vec d) :
    EuclideanMetric.norm v ^ 2 = EuclideanMetric.squared_norm v :=
  Real.sq_sqrt (squared_norm_nonneg v)

lemma inner_product_comm {d : ℕ} (a b : Vec d) :
    EuclideanMetric.inner_product a b = EuclideanMetric.inner_product b a := by
  unfold EuclideanMetric.inner_product
  exact Finset.sum_congr rfl fun i _ => mul_comm (a i) (b i)

lemma squared_norm_comb {d : ℕ} (x y : ℝ) (u w : Vec d) :
    EuclideanMetric.squared_norm (fun j => x * u j + y * w j)
      = x ^ 2 * EuclideanMetric.squared_norm u
        + 2 * x * y * EuclideanMetric.inner_product u w
        + y ^ 2 * EuclideanMetric.squared_norm w := by
  unfold EuclideanMetric.squared_norm EuclideanMetric.inner_product
  rw [Finset.mul_sum, Finset.mul_sum, Finset.mul_sum, ← Finset.sum_add_distrib,
    ← Finset.sum_add_distrib]
  exact Finset.sum_congr rfl fun i _ => by ring

lemma inner_product_sub_mul {d : ℕ} (a u : Vec d) (t : ℝ) (y : Vec d) :
    EuclideanMetric.inner_product a (fun j => u j - t * y j)
      = EuclideanMetric.inner_product a u - t * EuclideanMetric.inner_product a y := by
  unfold EuclideanMetric.inner_product
  rw [Finset.mul_sum, ← Finset.sum_sub_distrib]
  exact Finset.sum_congr rfl fun i _ => by ring

lemma inner_product_sq_le {d : ℕ} (a b : Vec d) :
    EuclideanMetric.inner_product a b ^ 2
      ≤ EuclideanMetric.squared_norm a * EuclideanMetric.squared_norm b := by
  have h := Finset.sum_mul_sq_le_sq_mul_sq Finset.univ a b
  simpa [EuclideanMetric.inner_product, EuclideanMetric.squared_norm, sq] using h

lemma norm_le_of_squared_norm_le {d : ℕ} {v : Vec d} {t : ℝ} (ht : 0 ≤ t)
    (h : EuclideanMetric.squared_norm v ≤ t ^ 2) :
    EuclideanMetric.norm v ≤ t := by
  have h1 : EuclideanMetric.norm v ≤ Real.sqrt (t ^ 2) :=
    Real.sqrt_le_sqrt h
  rwa [Real.sqrt_sq ht] at h1

/-! ### Claims C9, C10, C5, C7, C6 -/

/-- Claim C9: for every intrinsic point p, converting to extrinsic coordinates
and back is exactly the identity; the prepended coordinate sqrt(1 - norm^2) is
simply dropped by the inverse conversion, whatever its value. -/
theorem coords_round_trip (p : List ℝ) :
    Hypersphere.extrinsic_to_intrinsic_coords
      (Hypersphere.intrinsic_to_extrinsic_coords p) = p := rfl

/-- Claim C10: HypersphereMetric.squared_norm returns the ambient Euclidean
squared norm of the vector and does not depend on the base_point argument. -/
theorem metric_squared_norm_ambient {d : ℕ} (v : Vec d)
    (b1 b2 : Option (Vec d)) :
    HypersphereMetric.squared_norm v b1 = EuclideanMetric.squared_norm v
    ∧ HypersphereMetric.squared_norm v b1 = HypersphereMetric.squared_norm v b2 :=
  ⟨rfl, rfl⟩

/-- Claim C5: belongs returns true iff the last-axis dimension is n+1 and the
squared ambient norm is within tolerance of 1; it is a total function that
returns false on any dimension mismatch, emitting the warning exactly when
the dimension equals n (intrinsic coordinates supplied by mistake). -/
theorem belongs_characterization (n : ℕ) (point : List ℝ) (tol : ℝ) :
    ((Hypersphere.belongs n point tol).result = true
      ↔ point.length = n + 1
        ∧ |EuclideanMetric.squared_norm_list point - 1| ≤ tol)
    ∧ ((Hypersphere.belongs n point tol).warned = true ↔ point.length = n) := by
  unfold Hypersphere.belongs
  by_cases h : point.length = n + 1
  · have hne : point.length ≠ n := by omega
    simp [h, hne]
  · simp [h]

/-- Claim C7: regularize fails with a PreconditionViolation exactly when
belongs is false, and otherwise returns the point divided by its ambient
norm (the re-projection). -/
theorem regularize_characterization (n : ℕ) (pt : List ℝ) :
    (Hypersphere.regularize n pt = Except.error GsError.preconditionViolation
      ↔ (Hypersphere.belongs n pt TOLERANCE).result = false)
    ∧ (Hypersphere.regularize n pt
          = Except.ok (pt.map fun x => x / EuclideanMetric.norm_list pt)
      ↔ (Hypersphere.belongs n pt TOLERANCE).result = true) := by
  unfold Hypersphere.regularize Hypersphere.projection
  cases hb : (Hypersphere.belongs n pt TOLERANCE).result <;> simp [hb]

/-- Claim C6: random_von_mises_fisher fails with an UnsupportedConfiguration
error iff the dimension differs from 2; in dimension 2 it returns the points
(sqrt(1-z^2)cos(azimuth), sqrt(1-z^2)sin(azimuth), z) with azimuth = 2*pi*u
and z = 1 + (1/kappa)log(u + (1-u)exp(-2*kappa)) over the injected draws. -/
theorem von_mises_fisher_characterization {ns : ℕ} (dimension : ℕ) (kappa : ℝ)
    (angle_draws scalar_draws : Fin ns → ℝ) :
    (Hypersphere.random_von_mises_fisher dimension kappa angle_draws scalar_draws
        = Except.error GsError.unsupportedConfiguration ↔ dimension ≠ 2)
    ∧ Hypersphere.random_von_mises_fisher 2 kappa angle_draws scalar_draws
        = Except.ok (fun i =>
            ![Real.sqrt (1 - (1 + 1 / kappa * Real.log (scalar_draws i
                  + (1 - scalar_draws i) * Real.exp (-2 * kappa))) ^ 2)
                * Real.cos (2 * Real.pi * angle_draws i),
              Real.sqrt (1 - (1 + 1 / kappa * Real.log (scalar_draws i
                  + (1 - scalar_draws i) * Real.exp (-2 * kappa))) ^ 2)
                * Real.sin (2 * Real.pi * angle_draws i),
              1 + 1 / kappa * Real.log (scalar_draws i
                  + (1 - scalar_draws i) * Real.exp (-2 * kappa))]) := by
  constructor
  · unfold Hypersphere.random_von_mises_fisher
    by_cases h : dimension ≠ 2 <;> simp [h]
  · rfl

/-! ### Claim C1: structure of the masked log computation -/

/-- Claim C1: inside HypersphereMetric.log the angle is
arccos(clip(inner/(norm*norm), -1, 1)); the output is elementwise
coef_1*point - coef_2*base_point; on the near-zero mask the coefficients are
the truncated even Taylor polynomials and on the remainder they are
theta/sin(theta) and theta/tan(theta); the mask floats are disjoint and
exhaustive, each partial coefficient array vanishes off its own mask, and the
partial arrays sum elementwise to the full coefficient arrays. -/
theorem log_mask_partition_and_coefficients {m d : ℕ}
    (points base_points : Fin m → Vec d) (θs : Fin m → ℝ) (i : Fin m) :
    HypersphereMetric.angleBatch points base_points i
        = Real.arccos (clip (EuclideanMetric.inner_product (base_points i) (points i)
            / (EuclideanMetric.norm (base_points i) * EuclideanMetric.norm (points i)))
            (-1) 1)
    ∧ HypersphereMetric.logBatch points base_points i = (fun j =>
        coefOneArr (HypersphereMetric.angleBatch points base_points) i * points i j
          - coefTwoArr (HypersphereMetric.angleBatch points base_points) i
              * base_points i j)
    ∧ coefOneArr θs i = (if isclose (θs i) 0 then taylorCoefOne (θs i)
        else θs i / Real.sin (θs i))
    ∧ coefTwoArr θs i = (if isclose (θs i) 0 then taylorCoefTwo (θs i)
        else θs i / Real.tan (θs i))
    ∧ taylorCoefOne (θs i) = 1 + θs i ^ 2 / 6 + 7 * θs i ^ 4 / 360
        + 31 * θs i ^ 6 / 15120 + 127 * θs i ^ 8 / 604800
    ∧ taylorCoefTwo (θs i) = 1 - θs i ^ 2 / 3 - θs i ^ 4 / 45
        - 2 * θs i ^ 6 / 945 - θs i ^ 8 / 4725
    ∧ mask0F (θs i) * maskElseF (θs i) = 0
    ∧ mask0F (θs i) + maskElseF (θs i) = 1
    ∧ coefOneMasked0 θs i = (if isclose (θs i) 0 then taylorCoefOne (θs i) else 0)
    ∧ coefOneMaskedElse θs i
        = (if isclose (θs i) 0 then 0 else θs i / Real.sin (θs i))
    ∧ coefTwoMasked0 θs i = (if isclose (θs i) 0 then taylorCoefTwo (θs i) else 0)
    ∧ coefTwoMaskedElse θs i
        = (if isclose (θs i) 0 then 0 else θs i / Real.tan (θs i))
    ∧ coefOneMasked0 θs i + coefOneMaskedElse θs i = coefOneArr θs i
    ∧ coefTwoMasked0 θs i + coefTwoMaskedElse θs i = coefTwoArr θs i := by
  refine ⟨rfl, rfl, ?_, ?_, by unfold taylorCoefOne; ring,
    by unfold taylorCoefTwo; ring, ?_, ?_, ?_, ?_, ?_, ?_, ?_, ?_⟩ <;>
    by_cases h : isclose (θs i) 0 <;>
    simp [coefOneArr, coefTwoArr, coefOne, coefTwo, coefOneMasked0,
      coefOneMaskedElse, coefTwoMasked0, coefTwoMaskedElse, mask0F, maskElseF, h]

/-! ### Claim C4: the quarter-turn scenario on the 2-sphere -/

lemma norm_e1 : EuclideanMetric.norm (![1, 0, 0] : Vec 3) = 1 := by
  unfold EuclideanMetric.norm EuclideanMetric.squared_norm EuclideanMetric.inner_product
  rw [Fin.sum_univ_three]
  norm_num

lemma norm_e2 : EuclideanMetric.norm (![0, 1, 0] : Vec 3) = 1 := by
  unfold EuclideanMetric.norm EuclideanMetric.squared_norm EuclideanMetric.inner_product
  rw [Fin.sum_univ_three]
  norm_num

lemma angle_e2_e1 :
    HypersphereMetric.angle (![0, 1, 0] : Vec 3) ![1, 0, 0] = Real.pi / 2 := by
  unfold HypersphereMetric.angle
  rw [norm_e1, norm_e2]
  have hip : EuclideanMetric.inner_product (![1, 0, 0] : Vec 3) ![0, 1, 0] = 0 := by
    unfold EuclideanMetric.inner_product
    rw [Fin.sum_univ_three]
    norm_num
  rw [hip]
  norm_num [clip, Real.arccos_zero]

lemma not_isclose_pi_div_two : ¬ isclose (Real.pi / 2) 0 := by
  unfold isclose
  have h3 : (3 : ℝ) < Real.pi := Real.pi_gt_three
  rw [abs_of_nonneg (by norm_num : (0:ℝ) ≤ 0)]
  rw [sub_zero, abs_of_pos (by linarith : (0:ℝ) < Real.pi / 2)]
  norm_num
  linarith

/-- Claim C4: on the 2-sphere with base_point (1,0,0) and point (0,1,0), dist
is pi/2 and log is (0, pi/2, 0); the angle is not in the near-zero mask (no
Taylor correction applies), and dist is in general just the arccos of the
clipped normalized inner product. -/
theorem dist_log_quarter_turn :
    HypersphereMetric.dist (![0, 1, 0] : Vec 3) ![1, 0, 0] = Real.pi / 2
    ∧ HypersphereMetric.log (![0, 1, 0] : Vec 3) ![1, 0, 0] = ![0, Real.pi / 2, 0]
    ∧ mask0F (HypersphereMetric.angle (![0, 1, 0] : Vec 3) ![1, 0, 0]) = 0
    ∧ ∀ (d : ℕ) (a b : Vec d), HypersphereMetric.dist a b
        = Real.arccos (clip (EuclideanMetric.inner_product a b
            / (EuclideanMetric.norm a * EuclideanMetric.norm b)) (-1) 1) := by
  refine ⟨?_, ?_, ?_, fun d a b => rfl⟩
  · unfold HypersphereMetric.dist
    rw [norm_e1, norm_e2]
    have hip : EuclideanMetric.inner_product (![0, 1, 0] : Vec 3) ![1, 0, 0] = 0 := by
      unfold EuclideanMetric.inner_product
      rw [Fin.sum_univ_three]
      norm_num
    rw [hip]
    norm_num [clip, Real.arccos_zero]
  · have hc1 : coefOne (Real.pi / 2) = Real.pi / 2 := by
      unfold coefOne mask0F maskElseF
      rw [if_neg not_isclose_pi_div_two, if_neg not_isclose_pi_div_two,
        Real.sin_pi_div_two]
      ring
    have hc2 : coefTwo (Real.pi / 2) = 0 := by
      unfold coefTwo mask0F maskElseF
      rw [if_neg not_isclose_pi_div_two, if_neg not_isclose_pi_div_two,
        Real.tan_pi_div_two]
      simp
    funext j
    unfold HypersphereMetric.log
    rw [angle_e2_e1, hc1, hc2]
    fin_cases j <;> simp
  · unfold mask0F
    rw [angle_e2_e1, if_neg not_isclose_pi_div_two]

/-! ### Claim C3: the epsilon in exp biases every output, not only the division -/

/-- Counterexample to claim C3 as stated: at base point (1,0) and tangent
vector (0, pi/2) the code's exp differs from the claimed formula
cos(norm)*p + (sin(norm)/norm)*v, because EPSILON is added to the norm before
the cosine as well, not only before the division. -/
theorem exp_epsilon_counterexample :
    HypersphereMetric.exp (![0, Real.pi / 2] : Vec 2) ![1, 0]
      ≠ HypersphereMetric.expSpec (![0, Real.pi / 2] : Vec 2) ![1, 0] := by
  have hn : EuclideanMetric.norm (![0, Real.pi / 2] : Vec 2) = Real.pi / 2 := by
    unfold EuclideanMetric.norm EuclideanMetric.squared_norm EuclideanMetric.inner_product
    rw [Fin.sum_univ_two]
    have : (0 : ℝ) * 0 + Real.pi / 2 * (Real.pi / 2) = (Real.pi / 2) ^ 2 := by ring
    norm_num
    rw [show Real.pi / 2 * (Real.pi / 2) = (Real.pi / 2) ^ 2 by ring]
    exact Real.sqrt_sq (by positivity)
  intro h
  have h0 := congrFun h 0
  unfold HypersphereMetric.exp HypersphereMetric.expSpec at h0
  rw [hn] at h0
  simp at h0
  have hcos : Real.cos (Real.pi / 2 + EPSILON) = - Real.sin EPSILON := by
    rw [Real.cos_add, Real.cos_pi_div_two, Real.sin_pi_div_two]
    ring
  have hsin : 0 < Real.sin EPSILON := by
    apply Real.sin_pos_of_pos_of_lt_pi
    · norm_num [EPSILON]
    · have h3 : (3 : ℝ) < Real.pi := Real.pi_gt_three
      norm_num [EPSILON]
      linarith
  rw [hcos] at h0
  linarith

/-- Claim C3 amended: exp returns
cos(norm+EPSILON)*p + (sin(norm+EPSILON)/(norm+EPSILON))*v — EPSILON is added
to the norm once and that inflated norm feeds the cosine, the sine and the
divisor alike (so every output is slightly biased, not only near-zero
vectors); the inflated norm is strictly positive, which is what removes the
0/0 at v = 0. -/
theorem exp_formula_with_epsilon {d : ℕ} (tangent_vec base_point : Vec d) :
    HypersphereMetric.exp tangent_vec base_point = (fun j =>
      Real.cos (EuclideanMetric.norm tangent_vec + EPSILON) * base_point j
        + Real.sin (EuclideanMetric.norm tangent_vec + EPSILON)
            / (EuclideanMetric.norm tangent_vec + EPSILON) * tangent_vec j)
    ∧ 0 < EuclideanMetric.norm tangent_vec + EPSILON := by
  refine ⟨rfl, ?_⟩
  have h := ambient_norm_nonneg tangent_vec
  unfold EPSILON
  linarith

/-! ### Claim C8: belongs after projection / random_uniform -/

lemma squared_norm_list_nonneg (l : List ℝ) :
    0 ≤ EuclideanMetric.squared_norm_list l := by
  unfold EuclideanMetric.squared_norm_list
  apply List.sum_nonneg
  intro x hx
  simp only [List.mem_map] at hx
  obtain ⟨y, _, rfl⟩ := hx
  exact mul_self_nonneg y

lemma sq_norm_list_eq (l : List ℝ) :
    EuclideanMetric.norm_list l ^ 2 = EuclideanMetric.squared_norm_list l :=
  Real.sq_sqrt (squared_norm_list_nonneg l)

lemma squared_norm_list_map_div (l : List ℝ) (c : ℝ) :
    EuclideanMetric.squared_norm_list (l.map fun x => x / c)
      = EuclideanMetric.squared_norm_list l / c ^ 2 := by
  unfold EuclideanMetric.squared_norm_list
  induction l with
  | nil => simp
  | cons a t ih =>
    simp only [List.map_cons, List.sum_cons]
    rw [ih, add_div, div_mul_div_comm]
    ring

/-- Counterexample to claim C8 as stated: projection of the zero vector fails
belongs (the norm-0 division produces no unit vector), and a random_uniform
sample in intrinsic dimension 5 whose draws sit at the corner of the box has
intrinsic squared norm 1.25 > 1, so the lifted point fails belongs too. -/
theorem random_uniform_belongs_counterexample :
    (Hypersphere.belongs 1 (Hypersphere.projection [0, 0]) TOLERANCE).result = false
    ∧ (Hypersphere.belongs 5 (Hypersphere.random_uniform [0, 0, 0, 0, 0])
        TOLERANCE).result = false := by
  constructor
  · have hproj : Hypersphere.projection [0, 0] = [0, 0] := by
      simp [Hypersphere.projection]
    rw [hproj]
    unfold Hypersphere.belongs
    norm_num [EuclideanMetric.squared_norm_list, TOLERANCE]
  · have hmap : (([0, 0, 0, 0, 0] : List ℝ).map fun x => x - 0.5)
        = [-0.5, -0.5, -0.5, -0.5, -0.5] := by
      norm_num
    have hsqn : EuclideanMetric.squared_norm_list
        ([-0.5, -0.5, -0.5, -0.5, -0.5] : List ℝ) = 1.25 := by
      norm_num [EuclideanMetric.squared_norm_list]
    have hc0 : Real.sqrt (1 - EuclideanMetric.norm_list
        ([-0.5, -0.5, -0.5, -0.5, -0.5] : List ℝ) ^ 2) = 0 := by
      rw [sq_norm_list_eq, hsqn]
      apply Real.sqrt_eq_zero_of_nonpos
      norm_num
    have hru : Hypersphere.random_uniform [0, 0, 0, 0, 0]
        = 0 :: [-0.5, -0.5, -0.5, -0.5, -0.5] := by
      unfold Hypersphere.random_uniform Hypersphere.intrinsic_to_extrinsic_coords
      rw [hmap, hc0]
    rw [hru]
    unfold Hypersphere.belongs
    norm_num [EuclideanMetric.squared_norm_list, TOLERANCE]
    have habs : |(1 : ℝ) / 4| = 1 / 4 := abs_of_nonneg (by norm_num)
    rw [habs]
    norm_num

/-- Claim C8 amended: belongs holds for the projection of any point of ambient
dimension n+1 with nonzero ambient norm, and for any random_uniform sample
whose centred draws have squared norm at most 1 (in particular all samples in
intrinsic dimension at most 4); projection of a zero-norm point and box
corners in dimension 5 and up escape the sphere, as the counterexample shows. -/
theorem belongs_of_projection_and_random_uniform (n : ℕ) (pt draws : List ℝ) :
    (pt.length = n + 1 → EuclideanMetric.norm_list pt ≠ 0 →
      (Hypersphere.belongs n (Hypersphere.projection pt) TOLERANCE).result = true)
    ∧ (EuclideanMetric.squared_norm_list (draws.map fun x => x - 0.5) ≤ 1 →
      (Hypersphere.belongs draws.length (Hypersphere.random_uniform draws)
          TOLERANCE).result = true) := by
  constructor
  · intro hlen hc
    have hsq : EuclideanMetric.squared_norm_list (Hypersphere.projection pt) = 1 := by
      unfold Hypersphere.projection
      rw [squared_norm_list_map_div, ← sq_norm_list_eq]
      exact div_self (pow_ne_zero 2 hc)
    have hlen2 : (Hypersphere.projection pt).length = n + 1 := by
      simpa [Hypersphere.projection] using hlen
    unfold Hypersphere.belongs
    rw [if_neg (not_not_intro hlen2)]
    simp only [decide_eq_true_eq, hsq]
    norm_num [TOLERANCE]
  · intro hs
    have h1s : 0 ≤ 1 - EuclideanMetric.squared_norm_list
        (draws.map fun x => x - 0.5) := by linarith
    have hsq : EuclideanMetric.squared_norm_list
        (Hypersphere.random_uniform draws) = 1 := by
      unfold Hypersphere.random_uniform Hypersphere.intrinsic_to_extrinsic_coords
      unfold EuclideanMetric.squared_norm_list
      simp only [List.map_cons, List.sum_cons]
      have hc : Real.sqrt (1 - EuclideanMetric.norm_list
            (draws.map fun x => x - 0.5) ^ 2)
          * Real.sqrt (1 - EuclideanMetric.norm_list
            (draws.map fun x => x - 0.5) ^ 2)
          = 1 - EuclideanMetric.squared_norm_list (draws.map fun x => x - 0.5) := by
        rw [sq_norm_list_eq]
        exact Real.mul_self_sqrt h1s
      rw [hc]
      unfold EuclideanMetric.squared_norm_list
      ring
    have hlen2 : (Hypersphere.random_uniform draws).length = draws.length + 1 := by
      simp [Hypersphere.random_uniform, Hypersphere.intrinsic_to_extrinsic_coords]
    unfold Hypersphere.belongs
    rw [if_neg (not_not_intro hlen2)]
    simp only [decide_eq_true_eq, hsq]
    norm_num [TOLERANCE]

/-- Witness for the amended claim C8 at concrete inputs: projection of (3,4)
on the 1-sphere and a single centred draw on the 1-sphere both belong. -/
theorem belongs_of_projection_and_random_uniform_check :
    (Hypersphere.belongs 1 (Hypersphere.projection [3, 4]) TOLERANCE).result = true
    ∧ (Hypersphere.belongs 1 (Hypersphere.random_uniform [0.5]) TOLERANCE).result
        = true := by
  constructor
  · apply (belongs_of_projection_and_random_uniform 1 [3, 4] [0.5]).1
    · rfl
    · unfold EuclideanMetric.norm_list EuclideanMetric.squared_norm_list
      norm_num
  · apply (belongs_of_projection_and_random_uniform 1 [3, 4] [0.5]).2
    norm_num [EuclideanMetric.squared_norm_list]

/-! ### Analytic helper lemmas for claim C2 -/

lemma squared_norm_smul {d : ℕ} (t : ℝ) (u : Vec d) :
    EuclideanMetric.squared_norm (fun j => t * u j)
      = t ^ 2 * EuclideanMetric.squared_norm u := by
  unfold EuclideanMetric.squared_norm EuclideanMetric.inner_product
  rw [Finset.mul_sum]
  exact Finset.sum_congr rfl fun i _ => by ring

lemma sin_le_self (x : ℝ) (hx : 0 ≤ x) : Real.sin x ≤ x := by
  rcases hx.eq_or_lt with h | h
  · rw [← h]; simp
  · exact (Real.sin_lt h).le

lemma abs_cos_sub_cos_le (a b : ℝ) : |Real.cos a - Real.cos b| ≤ |a - b| := by
  rw [Real.cos_sub_cos]
  calc |(-2) * Real.sin ((a + b) / 2) * Real.sin ((a - b) / 2)|
      = 2 * |Real.sin ((a + b) / 2)| * |Real.sin ((a - b) / 2)| := by
        rw [abs_mul, abs_mul]; norm_num
    _ ≤ 2 * 1 * |(a - b) / 2| := by
        apply mul_le_mul _ (Real.abs_sin_le_abs) (abs_nonneg _)
        · norm_num
        · apply mul_le_mul_of_nonneg_left (Real.abs_sin_le_one _)
          norm_num
    _ = |a - b| := by rw [abs_div, abs_two]; ring

lemma abs_sin_sub_sin_le (a b : ℝ) : |Real.sin a - Real.sin b| ≤ |a - b| := by
  rw [Real.sin_sub_sin]
  calc |2 * Real.sin ((a - b) / 2) * Real.cos ((a + b) / 2)|
      = 2 * |Real.sin ((a - b) / 2)| * |Real.cos ((a + b) / 2)| := by
        rw [abs_mul, abs_mul]; norm_num
    _ ≤ 2 * |(a - b) / 2| * 1 := by
        apply mul_le_mul _ (Real.abs_cos_le_one _) (abs_nonneg _)
        · apply mul_nonneg _ (abs_nonneg _)
          norm_num
        · apply mul_le_mul_of_nonneg_left Real.abs_sin_le_abs
          norm_num
    _ = |a - b| := by rw [abs_div, abs_two]; ring

/-- Claim C2: for unit-norm p and q whose geodesic angle lies strictly between
0 and pi, exp(log(p, q), q) is within Euclidean distance 1e-6 of p. The proof
covers both the Taylor mask (angle at most 1e-8) and the closed-form branch;
the only deviation from exact identity is the EPSILON added to the tangent
norm inside exp, whose effect is bounded by about 3e-8. -/
theorem exp_log_inverse_bound {d : ℕ} (p q : Vec d)

    (hp : EuclideanMetric.norm p = 1) (hq : EuclideanMetric.norm q = 1)
    (hlo : 0 < HypersphereMetric.angle p q)
    (hhi : HypersphereMetric.angle p q < Real.pi) :
    EuclideanMetric.norm
      (fun j => HypersphereMetric.exp (HypersphereMetric.log p q) q j - p j)
      ≤ 1e-6 := by
  set θ := HypersphereMetric.angle p q with hθdef
  clear_value θ
  have hsp : EuclideanMetric.squared_norm p = 1 := by
    rw [← sq_norm_eq, hp]; norm_num
  have hsq : EuclideanMetric.squared_norm q = 1 := by
    rw [← sq_norm_eq, hq]; norm_num
  set c := EuclideanMetric.inner_product q p with hcdef
  clear_value c
  have hCS : c ^ 2 ≤ 1 := by
    have h := inner_product_sq_le q p
    rw [hsq, hsp, ← hcdef] at h
    simpa using h
  have hc1 : -1 ≤ c := by nlinarith only [hCS, sq_nonneg (c + 1)]
  have hc2 : c ≤ 1 := by nlinarith only [hCS, sq_nonneg (c - 1)]
  have hθarc : θ = Real.arccos c := by
    rw [hθdef]
    unfold HypersphereMetric.angle
    rw [hq, hp]
    rw [show EuclideanMetric.inner_product q p / (1 * 1) = c by rw [hcdef]; ring]
    unfold clip
    rw [min_eq_left hc2, max_eq_right hc1]
  have hcosθ : Real.cos θ = c := by rw [hθarc]; exact Real.cos_arccos hc1 hc2
  have hθ0 : (0:ℝ) ≤ θ := hlo.le
  have hsinθ0 : 0 < Real.sin θ := Real.sin_pos_of_pos_of_lt_pi hlo hhi
  have hsinθle : Real.sin θ ≤ θ := sin_le_self θ hθ0
  have hε : (0:ℝ) < EPSILON := by unfold EPSILON; norm_num
  set w : Vec d := fun j => p j - Real.cos θ * q j with hwdef
  clear_value w
  have hqq : EuclideanMetric.inner_product q q = 1 := hsq
  have hqw : EuclideanMetric.inner_product q w = 0 := by
    rw [hwdef, inner_product_sub_mul, hqq, hcosθ, ← hcdef]
    ring
  have hsqw : EuclideanMetric.squared_norm w = Real.sin θ ^ 2 := by
    have hw2 : w = fun j => 1 * p j + (- Real.cos θ) * q j := by
      funext j; rw [hwdef]; ring
    rw [hw2, squared_norm_comb, hsp, hsq, inner_product_comm p q, ← hcdef,
      ← hcosθ, Real.sin_sq]
    ring
  have hpj : ∀ j, p j = Real.cos θ * q j + w j := by
    intro j
    rw [hwdef]
    ring
  by_cases hmask : isclose θ 0
  · -- Taylor branch: θ ≤ 1e-8
    have hθsmall : θ ≤ 1e-8 := by
      unfold isclose at hmask
      rw [sub_zero, abs_of_nonneg hθ0] at hmask
      norm_num at hmask ⊢
      exact hmask
    have hθ1 : θ ≤ 1 := by
      have h : (1e-8:ℝ) ≤ 1 := by norm_num
      linarith only [hθsmall, h]
    have hθ2 : θ ^ 2 ≤ 1 := by nlinarith only [hθ0, hθ1]
    have h4 : θ ^ 4 ≤ θ ^ 2 := by nlinarith only [hθ2, sq_nonneg θ]
    have h6 : θ ^ 6 ≤ θ ^ 2 := by nlinarith only [h4, hθ2, sq_nonneg θ]
    have h8 : θ ^ 8 ≤ θ ^ 2 := by nlinarith only [h6, h4, hθ2, sq_nonneg θ]
    have hp2 : (0:ℝ) ≤ θ ^ 2 := sq_nonneg θ
    have hp4 : (0:ℝ) ≤ θ ^ 4 := by positivity
    have hp6 : (0:ℝ) ≤ θ ^ 6 := by positivity
    have hp8 : (0:ℝ) ≤ θ ^ 8 := by positivity
    have hcoef1 : coefOne θ = taylorCoefOne θ := by
      unfold coefOne mask0F maskElseF
      rw [if_pos hmask, if_pos hmask]
      ring
    have hcoef2 : coefTwo θ = taylorCoefTwo θ := by
      unfold coefTwo mask0F maskElseF
      rw [if_pos hmask, if_pos hmask]
      ring
    have hT1a : 1 ≤ taylorCoefOne θ := by
      unfold taylorCoefOne
      linarith only [hp2, hp4, hp6, hp8]
    have hT1b : taylorCoefOne θ ≤ 1 + θ ^ 2 := by
      unfold taylorCoefOne
      linarith only [h4, h6, h8, hp2]
    have hT2a : 1 - θ ^ 2 ≤ taylorCoefTwo θ := by
      unfold taylorCoefTwo
      linarith only [h4, h6, h8, hp2]
    have hT2b : taylorCoefTwo θ ≤ 1 := by
      unfold taylorCoefTwo
      linarith only [hp2, hp4, hp6, hp8]
    have hcosb1 : 1 - θ ^ 2 / 2 ≤ Real.cos θ := Real.one_sub_sq_div_two_le_cos
    have hcosb2 : Real.cos θ ≤ 1 := Real.cos_le_one θ
    have hcos0 : (0:ℝ) ≤ Real.cos θ := by linarith only [hcosb1, hθ2]
    set T1 := taylorCoefOne θ with hT1def
    clear_value T1
    set T2 := taylorCoefTwo θ with hT2def
    clear_value T2
    set a := T1 * Real.cos θ - T2 with hadef
    clear_value a
    have hT10 : (0:ℝ) ≤ T1 := by linarith only [hT1a]
    have haub : a ≤ 2 * θ ^ 2 := by
      have h : T1 * Real.cos θ ≤ T1 * 1 := mul_le_mul_of_nonneg_left hcosb2 hT10
      rw [hadef]
      linarith only [h, hT1b, hT2a]
    have halb : -(θ ^ 2) ≤ a := by
      have h : 1 * (1 - θ ^ 2 / 2) ≤ T1 * Real.cos θ :=
        mul_le_mul hT1a hcosb1 (by linarith only [hθ2]) hT10
      rw [hadef]
      linarith only [h, hT2b, hp2]
    have hlog : HypersphereMetric.log p q = fun j => a * q j + T1 * w j := by
      funext j
      unfold HypersphereMetric.log
      rw [← hθdef, hcoef1, hcoef2, hpj j, hadef]
      ring
    have hsqv : EuclideanMetric.squared_norm (HypersphereMetric.log p q)
        = a ^ 2 + T1 ^ 2 * Real.sin θ ^ 2 := by
      rw [hlog, squared_norm_comb, hsq, hqw, hsqw]
      ring
    set mv := EuclideanMetric.norm (HypersphereMetric.log p q) with hmvdef
    clear_value mv
    have hm0 : 0 ≤ mv := by rw [hmvdef]; exact ambient_norm_nonneg _
    have hmv2 : mv ^ 2 = a ^ 2 + T1 ^ 2 * Real.sin θ ^ 2 := by
      rw [hmvdef, sq_norm_eq, hsqv]
    have hsinθnn : 0 ≤ Real.sin θ := hsinθ0.le
    have hss : Real.sin θ ^ 2 ≤ θ ^ 2 := by nlinarith only [hsinθnn, hsinθle]
    have hT1le2 : T1 ≤ 2 := by linarith only [hT1b, hθ2]
    have hT1sq : T1 ^ 2 ≤ 4 := by nlinarith only [hT1a, hT1le2]
    have ha2 : a ^ 2 ≤ 4 * θ ^ 4 := by nlinarith only [haub, halb, sq_nonneg θ, hp2]
    have hT1s : T1 ^ 2 * Real.sin θ ^ 2 ≤ 4 * θ ^ 2 := by
      nlinarith only [hT1sq, hss, sq_nonneg (Real.sin θ), sq_nonneg T1]
    have hmvle : mv ≤ 3 * θ := by
      have h9 : mv ^ 2 ≤ (3 * θ) ^ 2 := by
        rw [hmv2]
        have h4b : 4 * θ ^ 4 ≤ 4 * θ ^ 2 := by linarith only [h4]
        nlinarith only [ha2, hT1s, h4b, hp2]
      calc mv = Real.sqrt (mv ^ 2) := (Real.sqrt_sq hm0).symm
        _ ≤ Real.sqrt ((3 * θ) ^ 2) := Real.sqrt_le_sqrt h9
        _ = 3 * θ := Real.sqrt_sq (by linarith only [hθ0])
    set N := mv + EPSILON with hNdef
    clear_value N
    have hN0 : 0 < N := by rw [hNdef]; linarith only [hm0, hε]
    have hNle : N ≤ 4e-8 := by
      rw [hNdef]
      unfold EPSILON
      linarith only [hmvle, hθsmall]
    have hN1 : N ≤ 1 := by
      have h : (4e-8:ℝ) ≤ 1 := by norm_num
      linarith only [hNle, h]
    have hcosN1 : Real.cos N ≤ 1 := Real.cos_le_one N
    have hcosN2 : 1 - N ^ 2 / 2 ≤ Real.cos N := Real.one_sub_sq_div_two_le_cos
    set s := Real.sin N / N with hsdef
    clear_value s
    have hs1 : s ≤ 1 := by
      rw [hsdef, div_le_one hN0]
      exact sin_le_self N hN0.le
    have hs2 : 1 - N ^ 2 / 4 ≤ s := by
      rw [hsdef, le_div_iff₀ hN0]
      have h := Real.sin_gt_sub_cube hN0 hN1
      calc (1 - N ^ 2 / 4) * N = N - N ^ 3 / 4 := by ring
        _ ≤ Real.sin N := h.le
    have hN2b : N ^ 2 ≤ 1 := by nlinarith only [hN0.le, hN1]
    have hs0 : 0 ≤ s := by linarith only [hs2, hN2b]
    have hdiff : (fun j => HypersphereMetric.exp (HypersphereMetric.log p q) q j - p j)
        = fun j => (Real.cos N + a * s - Real.cos θ) * q j + (T1 * s - 1) * w j := by
      funext j
      unfold HypersphereMetric.exp
      rw [← hmvdef, ← hNdef, ← hsdef]
      simp only [hlog]
      rw [hpj j]
      ring
    rw [hdiff]
    apply norm_le_of_squared_norm_le (by norm_num : (0:ℝ) ≤ 1e-6)
    rw [squared_norm_comb, hsq, hqw, hsqw]
    set X := Real.cos N + a * s - Real.cos θ with hXdef
    clear_value X
    set Y := T1 * s - 1 with hYdef
    clear_value Y
    have hθe2 : θ ^ 2 ≤ 1e-16 := by
      have h := mul_le_mul hθsmall hθsmall hθ0 (by norm_num : (0:ℝ) ≤ 1e-8)
      calc θ ^ 2 = θ * θ := by ring
        _ ≤ 1e-8 * 1e-8 := h
        _ = 1e-16 := by norm_num
    have hNe2 : N ^ 2 ≤ 16e-16 := by
      have h := mul_le_mul hNle hNle hN0.le (by norm_num : (0:ℝ) ≤ 4e-8)
      calc N ^ 2 = N * N := by ring
        _ ≤ 4e-8 * 4e-8 := h
        _ = 16e-16 := by norm_num
    have has1 : a * s ≤ 2 * θ ^ 2 := by
      nlinarith only [mul_nonneg (sub_nonneg.mpr haub) hs0,
        mul_nonneg (sub_nonneg.mpr hs1) hp2]
    have has2 : -(θ ^ 2) ≤ a * s := by
      nlinarith only [mul_nonneg (sub_nonneg.mpr halb) hs0,
        mul_nonneg (sub_nonneg.mpr hs1) hp2]
    have hXub : X ≤ 1e-14 := by
      rw [hXdef]
      linarith only [hcosN1, has1, hcosb1, hθe2]
    have hXlb : -(1e-14) ≤ X := by
      rw [hXdef]
      linarith only [hcosN2, hcosb2, has2, hNe2, hθe2]
    have hX2 : X ^ 2 ≤ 1e-28 := by nlinarith only [hXub, hXlb]
    have hYub : Y ≤ θ ^ 2 := by
      have h : T1 * s ≤ T1 * 1 := mul_le_mul_of_nonneg_left hs1 hT10
      rw [hYdef]
      linarith only [h, hT1b]
    have hYlb : -(N ^ 2 / 4) ≤ Y := by
      have h : 1 * (1 - N ^ 2 / 4) ≤ T1 * s :=
        mul_le_mul hT1a hs2 (by linarith only [hN2b]) hT10
      rw [hYdef]
      linarith only [h]
    have hYub2 : Y ≤ 1e-14 := by linarith only [hYub, hθe2]
    have hYlb2 : -(1e-14) ≤ Y := by linarith only [hYlb, hNe2]
    have hY2 : Y ^ 2 ≤ 1e-28 := by nlinarith only [hYub2, hYlb2]
    have hsin1 : Real.sin θ ^ 2 ≤ 1 := by linarith only [hss, hθ2]
    have hprod : Y ^ 2 * Real.sin θ ^ 2 ≤ 1e-28 * 1 :=
      mul_le_mul hY2 hsin1 (sq_nonneg _) (by norm_num)
    have hfin : X ^ 2 * 1 + 2 * X * Y * 0 + Y ^ 2 * Real.sin θ ^ 2
        = X ^ 2 + Y ^ 2 * Real.sin θ ^ 2 := by ring
    rw [hfin]
    have hgoal : (1e-6:ℝ) ^ 2 = 1e-12 := by norm_num
    rw [hgoal]
    linarith only [hX2, hprod]
  · -- closed-form branch
    have hsinne : Real.sin θ ≠ 0 := ne_of_gt hsinθ0
    have hcoef1 : coefOne θ = θ / Real.sin θ := by
      unfold coefOne mask0F maskElseF
      rw [if_neg hmask, if_neg hmask]
      ring
    have hcoef2 : coefTwo θ = θ * Real.cos θ / Real.sin θ := by
      unfold coefTwo mask0F maskElseF
      rw [if_neg hmask, if_neg hmask, Real.tan_eq_sin_div_cos, div_div_eq_mul_div]
      ring
    have hlog : HypersphereMetric.log p q = fun j => θ / Real.sin θ * w j := by
      funext j
      unfold HypersphereMetric.log
      rw [← hθdef, hcoef1, hcoef2, hpj j]
      field_simp
      ring
    have hsqv : EuclideanMetric.squared_norm (HypersphereMetric.log p q) = θ ^ 2 := by
      rw [hlog, squared_norm_smul, hsqw, div_pow]
      field_simp
    have hnv : EuclideanMetric.norm (HypersphereMetric.log p q) = θ := by
      unfold EuclideanMetric.norm
      rw [hsqv]
      exact Real.sqrt_sq hθ0
    set N := θ + EPSILON with hNdef
    clear_value N
    have hN0 : 0 < N := by rw [hNdef]; linarith only [hθ0, hε]
    have hdiff : (fun j => HypersphereMetric.exp (HypersphereMetric.log p q) q j - p j)
        = fun j => (Real.cos N - Real.cos θ) * q j
            + (Real.sin N / N * (θ / Real.sin θ) - 1) * w j := by
      funext j
      unfold HypersphereMetric.exp
      rw [hnv, ← hNdef]
      simp only [hlog]
      rw [hpj j]
      ring
    rw [hdiff]
    apply norm_le_of_squared_norm_le (by norm_num : (0:ℝ) ≤ 1e-6)
    rw [squared_norm_comb, hsq, hqw, hsqw]
    set X := Real.cos N - Real.cos θ with hXdef
    clear_value X
    set Y := Real.sin N / N * (θ / Real.sin θ) - 1 with hYdef
    clear_value Y
    have hXabs : |X| ≤ EPSILON := by
      have h := abs_cos_sub_cos_le N θ
      rw [show N - θ = EPSILON by rw [hNdef]; ring, abs_of_pos hε] at h
      rw [hXdef]
      exact h
    have hYsin : |Y * Real.sin θ| ≤ 2 * EPSILON := by
      have hysin : Y * Real.sin θ
          = (θ * (Real.sin N - Real.sin θ) - EPSILON * Real.sin θ) / N := by
        rw [hYdef]
        field_simp
        rw [hNdef]
        ring
      rw [hysin, abs_div, abs_of_pos hN0, div_le_iff₀ hN0]
      have h1 : |Real.sin N - Real.sin θ| ≤ EPSILON := by
        have h := abs_sin_sub_sin_le N θ
        rw [show N - θ = EPSILON by rw [hNdef]; ring, abs_of_pos hε] at h
        exact h
      calc |θ * (Real.sin N - Real.sin θ) - EPSILON * Real.sin θ|
          ≤ |θ * (Real.sin N - Real.sin θ)| + |EPSILON * Real.sin θ| := abs_sub _ _
        _ = θ * |Real.sin N - Real.sin θ| + EPSILON * Real.sin θ := by
            rw [abs_mul, abs_mul, abs_of_nonneg hθ0, abs_of_pos hε,
              abs_of_pos hsinθ0]
        _ ≤ θ * EPSILON + EPSILON * θ := by
            have ha := mul_le_mul_of_nonneg_left h1 hθ0
            have hb := mul_le_mul_of_nonneg_left hsinθle hε.le
            linarith only [ha, hb]
        _ ≤ 2 * EPSILON * N := by
            rw [hNdef]
            nlinarith only [hθ0, hε]
    have hX2 : X ^ 2 ≤ EPSILON ^ 2 := by
      rw [← sq_abs X]
      exact pow_le_pow_left₀ (abs_nonneg X) hXabs 2
    have hY2 : (Y * Real.sin θ) ^ 2 ≤ (2 * EPSILON) ^ 2 := by
      rw [← sq_abs (Y * Real.sin θ)]
      exact pow_le_pow_left₀ (abs_nonneg _) hYsin 2
    have hfin : X ^ 2 * 1 + 2 * X * Y * 0 + Y ^ 2 * Real.sin θ ^ 2
        = X ^ 2 + (Y * Real.sin θ) ^ 2 := by ring
    rw [hfin]
    unfold EPSILON at hX2 hY2
    have hgoal : (1e-6:ℝ) ^ 2 = 1e-12 := by norm_num
    rw [hgoal]
    have he1 : ((1e-8:ℝ)) ^ 2 = 1e-16 := by norm_num
    have he2 : ((2 * 1e-8:ℝ)) ^ 2 = 4e-16 := by norm_num
    rw [he1] at hX2
    rw [he2] at hY2
    linarith only [hX2, hY2]

/-- Witness for claim C2: the quarter-turn pair p = (0,1,0), q = (1,0,0) has
angle pi/2 strictly inside (0, pi), and the bound holds there. -/
theorem exp_log_inverse_bound_check :
    EuclideanMetric.norm
      (fun j => HypersphereMetric.exp
          (HypersphereMetric.log (![0, 1, 0] : Vec 3) ![1, 0, 0]) ![1, 0, 0] j
        - (![0, 1, 0] : Vec 3) j) ≤ 1e-6 :=
  exp_log_inverse_bound ![0, 1, 0] ![1, 0, 0] norm_e2 norm_e1
    (by rw [angle_e2_e1]; linarith [Real.pi_pos])
    (by rw [angle_e2_e1]; linarith [Real.pi_pos])
